import Mathlib

/-!
Shallow embedding of the PDFVisualTranslator translation pipeline:
the Gemini service layer (`src/geminiService.ts`, `src/services/geminiService.ts`),
the page data model (`src/types.ts`) and the page-lifecycle orchestrator
(the App component in `src/unnamed/part_011`), together with proofs of the
specified properties.

JavaScript numbers are modelled as rationals (`ℚ`), token counts as `ℕ`,
fallible remote calls as outcome streams indexed by invocation number, and
the asynchronous page-state mutations as explicit list-of-pages updaters.
-/

namespace PDFVT

/-- Helper for the substring test: does `pat` occur in `s` (as char lists)? -/
def containsAux (pat : List Char) : List Char → Bool
  | [] => pat.isEmpty
  | c :: t => pat.isPrefixOf (c :: t) || containsAux pat t

/-- Substring test mirroring JavaScript's `String.prototype.includes`. -/
def strContains (s pat : String) : Bool :=
  containsAux pat.data s.data

/-- Character-wise lower-casing, the model of JavaScript's
`String.prototype.toLowerCase` for the ASCII language names involved. -/
def strToLower (s : String) : String :=
  String.mk (s.data.map Char.toLower)

/-- Page lifecycle status, from `src/types.ts`. -/
inductive PageStatus
  | PENDING
  | TRANSLATING
  | DONE
  | ERROR
deriving DecidableEq, Repr

/-- Translation engine mode, from `src/types.ts`. -/
inductive TranslationMode
  | DIRECT
  | TWO_STEP
deriving DecidableEq, Repr

/-- One usage record for a single remote call (`UsageStats` in `src/types.ts`). -/
structure UsageStats where
  inputTokens : Nat
  outputTokens : Nat
  totalTokens : Nat
  cost : ℚ
deriving DecidableEq, Repr

/-- Pricing constant from `src/geminiService.ts` (USD per 1M input tokens). -/
def PRICE_PER_1M_INPUT : ℚ := 35 / 10

/-- Pricing constant from `src/geminiService.ts` (USD per 1M output tokens). -/
def PRICE_PER_1M_OUTPUT : ℚ := 105 / 10

/-- `calculateCost` from `src/geminiService.ts`. -/
def calculateCost (input output : ℚ) : ℚ :=
  input / 1000000 * PRICE_PER_1M_INPUT + output / 1000000 * PRICE_PER_1M_OUTPUT

/-- Construction of a `UsageStats` from raw token counts, as done at every
call site in `src/geminiService.ts` (`totalTokens = inputTokens + outputTokens`,
`cost = calculateCost inputTokens outputTokens`). -/
def mkUsage (inputTokens outputTokens : Nat) : UsageStats :=
  { inputTokens := inputTokens, outputTokens := outputTokens,
    totalTokens := inputTokens + outputTokens,
    cost := calculateCost inputTokens outputTokens }

/-- The aggregate component of a `TokenUsage` (`total` in `src/types.ts`). -/
structure TotalUsage where
  inputTokens : Nat
  outputTokens : Nat
  totalTokens : Nat
  cost : ℚ
deriving DecidableEq, Repr

/-- Per-page usage ledger (`TokenUsage` in `src/types.ts`, the variant used by
the orchestrator in `src/unnamed/part_011`): per-stage records plus a derived
total. -/
structure TokenUsage where
  extraction : Option UsageStats
  translation : UsageStats
  evaluation : Option UsageStats
  total : TotalUsage
deriving DecidableEq, Repr

/-- The nine audit dimensions (`EvaluationScores` in `src/types.ts`). -/
structure EvaluationScores where
  accuracy : ℚ
  fluency : ℚ
  consistency : ℚ
  terminology : ℚ
  completeness : ℚ
  formatPreservation : ℚ
  spelling : ℚ
  trademarkProtection : ℚ
  redundancyRemoval : ℚ
deriving DecidableEq, Repr

/-- `EvaluationResult` from `src/types.ts`. -/
structure EvaluationResult where
  scores : EvaluationScores
  averageScore : ℚ
  reason : String
  suggestions : String
deriving DecidableEq, Repr

/-- Rounding to one decimal place, the model of
`parseFloat(avg.toFixed(1))` in `src/geminiService.ts`. -/
def round1 (x : ℚ) : ℚ := (⌊x * 10 + 1 / 2⌋ : ℚ) / 10

/-- The sum of all nine dimension scores, exactly the numerator of the
average computed in `evaluateTranslation` (`src/geminiService.ts`). -/
def scoresSum (s : EvaluationScores) : ℚ :=
  s.accuracy + s.fluency + s.consistency + s.terminology + s.completeness +
    s.formatPreservation + s.spelling + s.trademarkProtection + s.redundancyRemoval

/-- Success-path construction of an `EvaluationResult` in `evaluateTranslation`
(`src/geminiService.ts`): `averageScore = parseFloat(((sum of 9 dims) / 9).toFixed(1))`. -/
def mkEvaluationResult (s : EvaluationScores) (reason suggestions : String) : EvaluationResult :=
  { scores := s, averageScore := round1 (scoresSum s / 9),
    reason := reason, suggestions := suggestions }

/-- The list of the nine dimensions of an `EvaluationScores`, used to state
the specification-side arithmetic mean. -/
def scoreDims (s : EvaluationScores) : List ℚ :=
  [s.accuracy, s.fluency, s.consistency, s.terminology, s.completeness,
   s.formatPreservation, s.spelling, s.trademarkProtection, s.redundancyRemoval]

/-- Specification-side arithmetic mean of the dimensions of an
`EvaluationScores`. -/
def dimsMean (s : EvaluationScores) : ℚ := (scoreDims s).sum / (scoreDims s).length

/-- One page record (`PageData` in `src/types.ts`). -/
structure PageData where
  pageNumber : Nat
  originalImage : String
  translatedImage : Option String
  status : PageStatus
  errorMessage : Option String
  usage : Option TokenUsage
  evaluation : Option EvaluationResult
  isEvaluating : Bool
  promptUsed : Option String
  extractedSegments : Option String
deriving DecidableEq, Repr

/-- One extracted text segment, from the extraction response schema in
`extractAndTranslateText` (`src/geminiService.ts`). -/
structure Segment where
  original : String
  translated : String
  location : Option String
deriving DecidableEq, Repr

/-- One line of the segment mapping string, from `extractAndTranslateText`:
`Segment i+1 [location or Text]: "original" => "translated"`. -/
def segmentLine (i : Nat) (s : Segment) : String :=
  "Segment " ++ toString (i + 1) ++ " [" ++ s.location.getD "Text" ++ "]: \"" ++
    s.original ++ "\" => \"" ++ s.translated ++ "\""

/-- The segment mapping string built by `extractAndTranslateText`
(`segments.map(...).join('\n')`); the empty list yields the empty string. -/
def mappingString (segs : List Segment) : String :=
  String.intercalate "\n" (segs.enum.map fun p => segmentLine p.1 p.2)

/-- The target-language test from `translateImageWithRetry`
(`src/geminiService.ts` line 184). -/
def isChineseTarget (targetLanguage : String) : Bool :=
  strContains (strToLower targetLanguage) "chinese" || strContains targetLanguage "中文" ||
    strContains targetLanguage "zh"

/-- Rate-limit/quota classification from the catch block of
`translateImageWithRetry` (`src/geminiService.ts` line 314). -/
def isQuotaError (msg : String) : Bool :=
  strContains msg "429" || strContains msg "403" || strContains msg "quota"

/-- Transient server-fault classification from the catch block of
`translateImageWithRetry` (`src/geminiService.ts` line 315). -/
def isInternalError (msg : String) : Bool :=
  strContains msg "500" || strContains msg "INTERNAL"

/-- An error is retried by `translateImageWithRetry` exactly when it is a
quota error or an internal server error. -/
def isRetryableError (msg : String) : Bool := isQuotaError msg || isInternalError msg

/-- Leading section of the redraw prompt (`src/geminiService.ts` lines 201-211). -/
def promptHeader (targetLanguage : String) (glossary : Option String) : String :=
  "**Role:** Elite Localization Engine (Visual Replacement Specialist)\n" ++
  "**Task:** Replace source text with: \"" ++ targetLanguage ++ "\".\n\n" ++
  "**IMAGE PRESERVATION RULE (MANDATORY):**\n" ++
  "- **DO NOT TRANSLATE PICTURES:** If the page contains photographs, graphical logos, or complex diagrams/illustrations, leave them EXACTLY as they are. \n" ++
  "- Do NOT overlay translated text on top of images or graphics. \n" ++
  "- ONLY translate text that is part of the document's body, headings, tables, or structural layout.\n\n" ++
  "**GLOSSARY ENFORCEMENT:**\n" ++
  (match glossary with
   | some g => "You MUST strictly use the following translations for specified terms:\n" ++ g
   | none => "No glossary provided.") ++ "\n"

/-- Fixed part of the two-step branch of the redraw prompt, before the mapping
block (`src/geminiService.ts` lines 213-221). -/
def promptTwoStepIntro : String :=
  "\n**ENGINE MODE: PURE VISUAL REPLACEMENT**\nUse the provided mapping. \n" ++
  "1. **TRUST THE MAPPING:** The text below already incorporates the glossary.\n" ++
  "2. **REPLACE ONLY:** Erase original text (matching background) and print translated text.\n" ++
  "3. **STYLE CLONING:** Match font, weight, color, and size exactly.\n\n"

/-- Two-step branch of the redraw prompt: the extracted mapping is injected
verbatim after the `TEXT MAPPING TO APPLY` marker (`src/geminiService.ts`
lines 213-223). -/
def promptTwoStep (mapping : String) : String :=
  promptTwoStepIntro ++ "**TEXT MAPPING TO APPLY:**\n" ++ mapping ++ "\n"

/-- Direct-mode branch of the redraw prompt (`src/geminiService.ts` lines 224-231). -/
def promptDirect (targetLanguage : String) : String :=
  "\n**DIRECT TRANSLATION INSTRUCTIONS:**\n" ++
  "1. **STRICT TARGET:** Target must be 100% \"" ++ targetLanguage ++ "\".\n" ++
  "2. **STYLE MATCHING:** The output must maintain the exact visual appearance (font, color, layout) of the original document.\n" ++
  "3. **ACCURACY:** High precision translation following the glossary provided above.\n"

/-- Chinese-localization clause of the redraw prompt (`src/geminiService.ts`
lines 233-239). -/
def promptChinese : String :=
  "\n**CRITICAL: CHINESE LOCALIZATION**\n" ++
  "- Replace all Japanese Kanji/Kana or foreign script with Standard Simplified Chinese.\n" ++
  "- Do NOT use Japanese glyph variants. Use mainland China standard Hanzi.\n"

/-- Output clause of the redraw prompt (`src/geminiService.ts` lines 241-246). -/
def promptOutput : String :=
  "\n**Output:**\n- A single image.\n- Resolution: 4K (Pixel-Perfect).\n- Aspect Ratio: Match Original.\n"

/-- Feedback clause of the redraw prompt (`src/geminiService.ts` lines 248-250). -/
def promptFeedback (previousSuggestions : Option String) : String :=
  match previousSuggestions with
  | some fb => "\n**FEEDBACK FROM PREVIOUS ATTEMPT:** \"" ++ fb ++ "\"\n"
  | none => ""

/-- The full redraw instruction string assembled by `translateImageWithRetry`
(`src/geminiService.ts` lines 201-250). -/
def buildPrompt (targetLanguage : String) (glossary : Option String) (mode : TranslationMode)
    (extractedTextMapping : String) (previousSuggestions : Option String) : String :=
  promptHeader targetLanguage glossary ++
  (match mode with
   | TranslationMode.TWO_STEP => promptTwoStep extractedTextMapping
   | TranslationMode.DIRECT => promptDirect targetLanguage) ++
  (if isChineseTarget targetLanguage then promptChinese else "") ++
  promptOutput ++ promptFeedback previousSuggestions

/-- Outcome of one invocation of the extraction call
(`extractAndTranslateText`): either a parsed segment list with the raw token
counts of the response, or a thrown error. -/
inductive ExtractionOutcome
  | ok (segments : List Segment) (inputTokens outputTokens : Nat)
  | err (msg : String)
deriving DecidableEq, Repr

/-- Outcome of one invocation of the redraw call (the image-generation request
inside `translateImageWithRetry`): either image data with raw token counts, or
a thrown error. -/
inductive RedrawOutcome
  | ok (imageData : String) (inputTokens outputTokens : Nat)
  | err (msg : String)
deriving DecidableEq, Repr

/-- The result bundle returned by `translateImage` on success
(`src/geminiService.ts` lines 300-305). -/
structure TransSuccess where
  image : String
  usage : TokenUsage
  promptUsed : String
  extractedSegments : Option String
deriving DecidableEq, Repr

/-- The mapping string and extraction usage produced by the two-step
pre-calculation in `translateImageWithRetry` (`src/geminiService.ts` lines
189-199): in `TWO_STEP` mode a successful extraction yields its mapping, a
thrown extraction is caught and replaced by the fallback sentence. -/
def attemptMapping (mode : TranslationMode) (extOut : ExtractionOutcome) :
    String × Option UsageStats :=
  match mode with
  | TranslationMode.DIRECT => ("", none)
  | TranslationMode.TWO_STEP =>
    match extOut with
    | ExtractionOutcome.ok segs i o => (mappingString segs, some (mkUsage i o))
    | ExtractionOutcome.err _ => ("Extraction failed. Proceed with direct translation.", none)

/-- The `TokenUsage` aggregation of `translateImageWithRetry`
(`src/geminiService.ts` lines 280-294): totals are the componentwise sums of
the (optional) extraction usage and the translation usage; there is no
evaluation record yet. -/
def combineUsage (extractionUsage : Option UsageStats) (translationUsage : UsageStats) :
    TokenUsage :=
  let totalInput := (extractionUsage.map (·.inputTokens)).getD 0 + translationUsage.inputTokens
  let totalOutput := (extractionUsage.map (·.outputTokens)).getD 0 + translationUsage.outputTokens
  let totalCost := (extractionUsage.map (·.cost)).getD 0 + translationUsage.cost
  { extraction := extractionUsage, translation := translationUsage, evaluation := none,
    total := { inputTokens := totalInput, outputTokens := totalOutput,
               totalTokens := totalInput + totalOutput, cost := totalCost } }

/-- One attempt of the body of `translateImageWithRetry`: run the two-step
pre-calculation, build the prompt, then perform the redraw call; the
attempt fails exactly when the redraw call fails. -/
def translateAttempt (mode : TranslationMode) (targetLanguage : String)
    (glossary : Option String) (previousSuggestions : Option String)
    (extOut : ExtractionOutcome) (rdOut : RedrawOutcome) : Except String TransSuccess :=
  let m := attemptMapping mode extOut
  let prompt := buildPrompt targetLanguage glossary mode m.1 previousSuggestions
  match rdOut with
  | RedrawOutcome.ok img i o =>
      Except.ok { image := "data:image/png;base64," ++ img,
                  usage := combineUsage m.2 (mkUsage i o),
                  promptUsed := prompt,
                  extractedSegments := if m.1 = "" then none else some m.1 }
  | RedrawOutcome.err msg => Except.error msg

/-- `translateImageWithRetry` (`src/geminiService.ts` lines 166-323):
each attempt re-runs the extraction step and the redraw step (streams `ext`
and `rd` give the outcome of the n-th invocation); on a retryable failure
with retries remaining it recurses with `retries - 1`, otherwise rethrows.
Returns the result together with the number of attempts performed. -/
def translateImageRun (mode : TranslationMode) (targetLanguage : String)
    (glossary : Option String) (previousSuggestions : Option String)
    (ext : Nat → ExtractionOutcome) (rd : Nat → RedrawOutcome) :
    Nat → Except String TransSuccess × Nat
  | 0 =>
    match translateAttempt mode targetLanguage glossary previousSuggestions (ext 0) (rd 0) with
    | Except.ok r => (Except.ok r, 1)
    | Except.error msg => (Except.error msg, 1)
  | Nat.succ rr =>
    match translateAttempt mode targetLanguage glossary previousSuggestions (ext 0) (rd 0) with
    | Except.ok r => (Except.ok r, 1)
    | Except.error msg =>
      if isRetryableError msg then
        let p := translateImageRun mode targetLanguage glossary previousSuggestions
          (fun n => ext (n + 1)) (fun n => rd (n + 1)) rr
        (p.1, p.2 + 1)
      else (Except.error msg, 1)

/-- `translateImage` (`src/geminiService.ts` lines 155-164): delegates to
`translateImageWithRetry` with `retries = 3`. -/
def translateImage (mode : TranslationMode) (targetLanguage : String)
    (glossary : Option String) (previousSuggestions : Option String)
    (ext : Nat → ExtractionOutcome) (rd : Nat → RedrawOutcome) :
    Except String TransSuccess × Nat :=
  translateImageRun mode targetLanguage glossary previousSuggestions ext rd 3

/-- Outcome of one invocation of the audit call inside `evaluateTranslation`:
either parsed scores with narrative fields and raw token counts, or a thrown
error (which includes parse failures of the structured response). -/
inductive EvalOutcome
  | ok (scores : EvaluationScores) (reason suggestions : String) (inputTokens outputTokens : Nat)
  | err (msg : String)
deriving DecidableEq, Repr

/-- All-zero scores. -/
def zeroScores : EvaluationScores :=
  { accuracy := 0, fluency := 0, consistency := 0, terminology := 0, completeness := 0,
    formatPreservation := 0, spelling := 0, trademarkProtection := 0, redundancyRemoval := 0 }

/-- The deterministic fallback result returned by `evaluateTranslation` when
its retries are exhausted (`src/geminiService.ts` line 434). -/
def evalFallback : EvaluationResult :=
  { scores := zeroScores, averageScore := 0, reason := "评估服务故障", suggestions := "" }

/-- The zero usage record attached to the evaluation fallback. -/
def zeroUsage : UsageStats := { inputTokens := 0, outputTokens := 0, totalTokens := 0, cost := 0 }

/-- `evaluateTranslation` (`src/geminiService.ts` lines 326-436): on success it
builds the result with the nine-dimension average; on ANY caught error it
retries while retries remain, and once they are exhausted it returns the
deterministic zero-score fallback instead of throwing. Returns the result
together with the number of attempts performed. -/
def evaluateTranslationRun (op : Nat → EvalOutcome) :
    Nat → (EvaluationResult × UsageStats) × Nat
  | 0 =>
    match op 0 with
    | EvalOutcome.ok s reason suggestions i o =>
        ((mkEvaluationResult s reason suggestions, mkUsage i o), 1)
    | EvalOutcome.err _ => ((evalFallback, zeroUsage), 1)
  | Nat.succ rr =>
    match op 0 with
    | EvalOutcome.ok s reason suggestions i o =>
        ((mkEvaluationResult s reason suggestions, mkUsage i o), 1)
    | EvalOutcome.err _ =>
        let p := evaluateTranslationRun (fun n => op (n + 1)) rr
        (p.1, p.2 + 1)

/-- `evaluateTranslation` entry point: `retries = 3`. -/
def evaluateTranslation (op : Nat → EvalOutcome) : (EvaluationResult × UsageStats) × Nat :=
  evaluateTranslationRun op 3

/-- View of a usage record as an aggregate. -/
def usageAsTotal (u : UsageStats) : TotalUsage :=
  { inputTokens := u.inputTokens, outputTokens := u.outputTokens,
    totalTokens := u.totalTokens, cost := u.cost }

/-- Componentwise sum of aggregates. -/
def addTotal (a b : TotalUsage) : TotalUsage :=
  { inputTokens := a.inputTokens + b.inputTokens,
    outputTokens := a.outputTokens + b.outputTokens,
    totalTokens := a.totalTokens + b.totalTokens, cost := a.cost + b.cost }

/-- The zero aggregate. -/
def zeroTotal : TotalUsage := { inputTokens := 0, outputTokens := 0, totalTokens := 0, cost := 0 }

/-- The records currently stored in a ledger, per stage, in order
`extraction ++ translation ++ evaluation`. -/
def ledgerRecords (u : TokenUsage) : List UsageStats :=
  u.extraction.toList ++ [u.translation] ++ u.evaluation.toList

/-- Pure fold of a sequence of usage records into an aggregate. -/
def foldTotal (l : List UsageStats) : TotalUsage :=
  l.foldl (fun acc r => addTotal acc (usageAsTotal r)) zeroTotal

/-- The evaluation-usage merge performed by the orchestrator in
`src/unnamed/part_011` (identical arithmetic in `startTranslation`,
`handleRetryPage` and `handleRetryEvaluation`): the `evaluation` slot is
REPLACED by the new record while each component of `total` is increased by
the new record's corresponding component. -/
def mergeEvalUsage (u : TokenUsage) (e : UsageStats) : TokenUsage :=
  { u with evaluation := some e, total := addTotal u.total (usageAsTotal e) }

/-- The supported-aspect-ratio table from `src/geminiService.ts`. -/
structure RatioEntry where
  label : String
  value : ℚ
deriving DecidableEq, Repr

/-- `SUPPORTED_ASPECT_RATIOS` from `src/geminiService.ts`. -/
def SUPPORTED_ASPECT_RATIOS : List RatioEntry :=
  [{ label := "1:1", value := 1 }, { label := "3:4", value := 3 / 4 },
   { label := "4:3", value := 4 / 3 }, { label := "9:16", value := 9 / 16 },
   { label := "16:9", value := 16 / 9 }]

/-- The scanning loop of `getBestAspectRatio`: keeps the current best entry
and its absolute difference, replacing it only on a strictly smaller
difference. -/
def ratioLoop (t : ℚ) : RatioEntry → ℚ → List RatioEntry → RatioEntry
  | best, _, [] => best
  | best, minDiff, r :: rs =>
      if |t - r.value| < minDiff then ratioLoop t r |t - r.value| rs
      else ratioLoop t best minDiff rs

/-- `getBestAspectRatio` from `src/geminiService.ts` lines 26-39: initial best
is the first table entry, the loop runs over the whole table. -/
def getBestAspectRatio (width height : ℚ) : String :=
  let t := width / height
  (ratioLoop t { label := "1:1", value := 1 } |t - 1| SUPPORTED_ASPECT_RATIOS).label

/-- Specification-side first-minimum scan, used to characterise `ratioLoop`. -/
def firstMinSpec (t : ℚ) : List RatioEntry → RatioEntry → RatioEntry
  | [], best => best
  | r :: rs, best =>
      if |t - r.value| < |t - best.value| then firstMinSpec t rs r else firstMinSpec t rs best

/-- Events applied to the shared page collection by the orchestrator in
`src/unnamed/part_011`: the batch loop's own status updates plus the
detached evaluation callbacks. -/
inductive BatchEvent
  | translating (n : Nat)
  | done (n : Nat) (res : TransSuccess)
  | error (n : Nat) (msg : String)
  | evalMerge (n : Nat) (r : EvaluationResult) (u : UsageStats)
  | evalCatch (n : Nat)
deriving DecidableEq, Repr

/-- The keyed evaluation merge of `startTranslation`, `handleRetryFailed` and
`handleRetryPage` in `src/unnamed/part_011`: a page is patched only when its
number matches AND it already has a usage ledger. -/
def batchEvalMergeUpd (n : Nat) (r : EvaluationResult) (u : UsageStats)
    (ps : List PageData) : List PageData :=
  ps.map fun p =>
    if p.pageNumber ≠ n then p
    else
      match p.usage with
      | none => p
      | some tu =>
          { p with evaluation := some r, usage := some (mergeEvalUsage tu u),
                   isEvaluating := false }

/-- The keyed evaluation merge of `handleRetryEvaluation` in
`src/unnamed/part_011`: a matching page is always patched; its ledger is
merged only when present. -/
def retryEvalMergeUpd (n : Nat) (r : EvaluationResult) (u : UsageStats)
    (ps : List PageData) : List PageData :=
  ps.map fun p =>
    if p.pageNumber ≠ n then p
    else
      { p with evaluation := some r,
               usage := match p.usage with
                        | none => none
                        | some tu => some (mergeEvalUsage tu u),
               isEvaluating := false }

/-- Interpretation of one orchestrator event as a keyed patch of the page
collection, following the `setPages(prev => prev.map(...))` updaters of
`src/unnamed/part_011`. -/
def applyEvent : BatchEvent → List PageData → List PageData
  | BatchEvent.translating n, ps =>
      ps.map fun p => if p.pageNumber = n then { p with status := PageStatus.TRANSLATING } else p
  | BatchEvent.done n r, ps =>
      ps.map fun p =>
        if p.pageNumber = n then
          { p with translatedImage := some r.image, usage := some r.usage,
                   promptUsed := some r.promptUsed, extractedSegments := r.extractedSegments,
                   status := PageStatus.DONE, isEvaluating := true }
        else p
  | BatchEvent.error n msg, ps =>
      ps.map fun p =>
        if p.pageNumber = n then
          { p with status := PageStatus.ERROR, errorMessage := some msg }
        else p
  | BatchEvent.evalMerge n r u, ps => batchEvalMergeUpd n r u ps
  | BatchEvent.evalCatch n, ps =>
      ps.map fun p => if p.pageNumber = n then { p with isEvaluating := false } else p

/-- Whether an event belongs to the detached evaluation callbacks. -/
def isEvalEvent : BatchEvent → Bool
  | BatchEvent.evalMerge _ _ _ => true
  | BatchEvent.evalCatch _ => true
  | _ => false

/-- The events emitted synchronously by the batch loop of `startTranslation`
for one page: mark it translating, then mark it done or errored according to
the translation outcome. The evaluation call is spawned, not awaited, so no
evaluation event appears here. -/
def pageLoopEvents (n : Nat) (outcome : Except String TransSuccess) : List BatchEvent :=
  match outcome with
  | Except.ok r => [BatchEvent.translating n, BatchEvent.done n r]
  | Except.error m => [BatchEvent.translating n, BatchEvent.error n m]

/-- The full synchronous event sequence of the sequential batch loop of
`startTranslation`, given each page's translation outcome. -/
def batchLoopEvents (outcomes : List (Nat × Except String TransSuccess)) : List BatchEvent :=
  (outcomes.map fun q => pageLoopEvents q.1 q.2).flatten

/-- A redraw-outcome stream that fails `k` times with message `msg` and then
succeeds forever with the given image data and token counts. -/
def rdFailK (k : Nat) (msg : String) (img : String) (i o : Nat) : Nat → RedrawOutcome :=
  fun n => if n < k then RedrawOutcome.err msg else RedrawOutcome.ok img i o

/-- An extraction stream whose meaning never matters; used for concrete
instantiations. -/
def extAlwaysErr : Nat → ExtractionOutcome := fun _ => ExtractionOutcome.err "boom"

/-- Extraction outcome that failed or yielded zero segments. -/
def extFailedOrEmpty (e : ExtractionOutcome) : Prop :=
  (∃ m, e = ExtractionOutcome.err m) ∨ ∃ i o, e = ExtractionOutcome.ok [] i o

/-- Concrete ledger as produced by a direct-mode `translateImage` success
with 10 input and 20 output tokens. -/
def ledgerEx0 : TokenUsage := combineUsage none (mkUsage 10 20)

/-- `ledgerEx0` after the first asynchronous evaluation merge. -/
def ledgerEx1 : TokenUsage := mergeEvalUsage ledgerEx0 (mkUsage 5 5)

/-- `ledgerEx1` after a repeated evaluation run is merged by
`handleRetryEvaluation`. -/
def ledgerEx2 : TokenUsage := mergeEvalUsage ledgerEx1 (mkUsage 7 3)

/-- A concrete successful translation result bundle. -/
def transSuccessEx : TransSuccess :=
  { image := "img", usage := combineUsage none (mkUsage 1 2), promptUsed := "p",
    extractedSegments := none }

/-- A concrete page record currently being translated. -/
def pageEx : PageData :=
  { pageNumber := 1, originalImage := "o", translatedImage := none,
    status := PageStatus.TRANSLATING, errorMessage := none, usage := none,
    evaluation := none, isEvaluating := false, promptUsed := none, extractedSegments := none }

/-- `pageEx` right after its `done` update. -/
def donePageEx : PageData :=
  { pageEx with
    translatedImage := some transSuccessEx.image,
    usage := some transSuccessEx.usage, promptUsed := some transSuccessEx.promptUsed,
    extractedSegments := transSuccessEx.extractedSegments, status := PageStatus.DONE,
    isEvaluating := true }

/-!
Helper lemmas.
-/

theorem translateAttempt_err (mode : TranslationMode) (tl : String) (gl fb : Option String)
    (e : ExtractionOutcome) (m : String) :
    translateAttempt mode tl gl fb e (RedrawOutcome.err m) = Except.error m := rfl

theorem translateAttempt_ok (mode : TranslationMode) (tl : String) (gl fb : Option String)
    (e : ExtractionOutcome) (img : String) (i o : Nat) :
    ∃ r, translateAttempt mode tl gl fb e (RedrawOutcome.ok img i o) = Except.ok r :=
  ⟨_, rfl⟩

theorem translateAttempt_error_inv (mode : TranslationMode) (tl : String) (gl fb : Option String)
    (e : ExtractionOutcome) (rdOut : RedrawOutcome) (m : String)
    (h : translateAttempt mode tl gl fb e rdOut = Except.error m) :
    rdOut = RedrawOutcome.err m := by
  cases rdOut with
  | ok img i o => simp [translateAttempt] at h
  | err m2 => simp [translateAttempt] at h; simp [h]

theorem run_ok (mode : TranslationMode) (tl : String) (gl fb : Option String)
    (ext : Nat → ExtractionOutcome) (rd : Nat → RedrawOutcome) (r : TransSuccess)
    (h : translateAttempt mode tl gl fb (ext 0) (rd 0) = Except.ok r) (N : Nat) :
    translateImageRun mode tl gl fb ext rd N = (Except.ok r, 1) := by
  cases N <;> simp [translateImageRun, h]

theorem run_zero_err (mode : TranslationMode) (tl : String) (gl fb : Option String)
    (ext : Nat → ExtractionOutcome) (rd : Nat → RedrawOutcome) (msg : String)
    (h : translateAttempt mode tl gl fb (ext 0) (rd 0) = Except.error msg) :
    translateImageRun mode tl gl fb ext rd 0 = (Except.error msg, 1) := by
  simp [translateImageRun, h]

theorem run_succ_err_retry (mode : TranslationMode) (tl : String) (gl fb : Option String)
    (ext : Nat → ExtractionOutcome) (rd : Nat → RedrawOutcome) (msg : String) (N : Nat)
    (h : translateAttempt mode tl gl fb (ext 0) (rd 0) = Except.error msg)
    (hm : isRetryableError msg = true) :
    translateImageRun mode tl gl fb ext rd (N + 1) =
      ((translateImageRun mode tl gl fb (fun n => ext (n + 1)) (fun n => rd (n + 1)) N).1,
       (translateImageRun mode tl gl fb (fun n => ext (n + 1)) (fun n => rd (n + 1)) N).2 + 1) := by
  simp [translateImageRun, h, hm]

theorem run_succ_err_noretry (mode : TranslationMode) (tl : String) (gl fb : Option String)
    (ext : Nat → ExtractionOutcome) (rd : Nat → RedrawOutcome) (msg : String) (N : Nat)
    (h : translateAttempt mode tl gl fb (ext 0) (rd 0) = Except.error msg)
    (hm : isRetryableError msg = false) :
    translateImageRun mode tl gl fb ext rd (N + 1) = (Except.error msg, 1) := by
  simp [translateImageRun, h, hm]

theorem rdFailK_shift (k : Nat) (msg img : String) (i o : Nat) :
    (fun n => rdFailK (k + 1) msg img i o (n + 1)) = rdFailK k msg img i o := by
  funext n
  simp [rdFailK, Nat.succ_lt_succ_iff]

/-- Full characterisation of the retry loop on a stream that fails `K` times
with a retryable message and then succeeds: the run succeeds exactly when
`K ≤ N`, and the number of attempts is `min (K + 1) (N + 1)`. -/
theorem run_failK (mode : TranslationMode) (tl : String) (gl fb : Option String)
    (img : String) (i o : Nat) (msg : String) (hm : isRetryableError msg = true) :
    ∀ N K (ext : Nat → ExtractionOutcome),
      ((∃ r, (translateImageRun mode tl gl fb ext (rdFailK K msg img i o) N).1 = Except.ok r)
          ↔ K ≤ N)
      ∧ (translateImageRun mode tl gl fb ext (rdFailK K msg img i o) N).2 = min (K + 1) (N + 1)
      ∧ (N < K →
          (translateImageRun mode tl gl fb ext (rdFailK K msg img i o) N).1
            = Except.error msg) := by
  intro N
  induction N with
  | zero =>
    intro K ext
    match K with
    | 0 =>
      obtain ⟨r, hr⟩ := translateAttempt_ok mode tl gl fb (ext 0) img i o
      have h0 : translateAttempt mode tl gl fb (ext 0) (rdFailK 0 msg img i o 0)
          = Except.ok r := by simpa [rdFailK] using hr
      rw [run_ok mode tl gl fb ext _ r h0]
      simp
    | Nat.succ k =>
      have h0 : translateAttempt mode tl gl fb (ext 0) (rdFailK (k + 1) msg img i o 0)
          = Except.error msg := by
        simp [rdFailK, translateAttempt_err]
      rw [run_zero_err mode tl gl fb ext _ msg h0]
      simp
  | succ N ih =>
    intro K ext
    match K with
    | 0 =>
      obtain ⟨r, hr⟩ := translateAttempt_ok mode tl gl fb (ext 0) img i o
      have h0 : translateAttempt mode tl gl fb (ext 0) (rdFailK 0 msg img i o 0)
          = Except.ok r := by simpa [rdFailK] using hr
      rw [run_ok mode tl gl fb ext _ r h0]
      simp
    | Nat.succ k =>
      have h0 : translateAttempt mode tl gl fb (ext 0) (rdFailK (k + 1) msg img i o 0)
          = Except.error msg := by
        simp [rdFailK, translateAttempt_err]
      rw [run_succ_err_retry mode tl gl fb ext _ msg N h0 hm]
      rw [rdFailK_shift k msg img i o]
      obtain ⟨hiff, hcnt, herr⟩ := ih k (fun n => ext (n + 1))
      refine ⟨by simpa [Nat.succ_le_succ_iff] using hiff, ?_, ?_⟩
      · simp [hcnt]
        omega
      · intro hlt
        exact herr (by omega)

/-- When every audit attempt throws, `evaluateTranslation` retries through its
whole budget and then returns the deterministic fallback. -/
theorem evalRun_allErr :
    ∀ (N : Nat) (op : Nat → EvalOutcome), (∀ n, ∃ m, op n = EvalOutcome.err m) →
      evaluateTranslationRun op N = ((evalFallback, zeroUsage), N + 1) := by
  intro N
  induction N with
  | zero =>
    intro op h
    obtain ⟨m, hm⟩ := h 0
    simp [evaluateTranslationRun, hm]
  | succ N ih =>
    intro op h
    obtain ⟨m, hm⟩ := h 0
    have hr := ih (fun n => op (n + 1)) (fun n => h (n + 1))
    simp [evaluateTranslationRun, hm, hr]

theorem addTotal_zero_left (t : TotalUsage) : addTotal zeroTotal t = t := by
  cases t
  simp [addTotal, zeroTotal]

theorem addTotal_comm (a b : TotalUsage) : addTotal a b = addTotal b a := by
  cases a; cases b
  simp [addTotal]
  refine ⟨by omega, by omega, by omega, by ring⟩

theorem addTotal_assoc (a b c : TotalUsage) :
    addTotal (addTotal a b) c = addTotal a (addTotal b c) := by
  cases a; cases b; cases c
  simp [addTotal]
  refine ⟨by omega, by omega, by omega, by ring⟩

theorem foldTotal_append_single (l : List UsageStats) (e : UsageStats) :
    foldTotal (l ++ [e]) = addTotal (foldTotal l) (usageAsTotal e) := by
  simp [foldTotal, List.foldl_append]

/-- Status preservation: the evaluation merge of the batch paths never touches
a page's primary status. -/
theorem batchEvalMergeUpd_status (n : Nat) (r : EvaluationResult) (u : UsageStats)
    (ps : List PageData) :
    (batchEvalMergeUpd n r u ps).map PageData.status = ps.map PageData.status := by
  unfold batchEvalMergeUpd
  rw [List.map_map]
  apply List.map_congr_left
  intro p _
  by_cases h : p.pageNumber = n
  · cases hu : p.usage <;> simp [h, hu]
  · simp [h]

/-- Status preservation: the evaluation merge of `handleRetryEvaluation` never
touches a page's primary status. -/
theorem retryEvalMergeUpd_status (n : Nat) (r : EvaluationResult) (u : UsageStats)
    (ps : List PageData) :
    (retryEvalMergeUpd n r u ps).map PageData.status = ps.map PageData.status := by
  unfold retryEvalMergeUpd
  rw [List.map_map]
  apply List.map_congr_left
  intro p _
  by_cases h : p.pageNumber = n <;> simp [h]

theorem map_self_of_fix {α : Type} (l : List α) (f : α → α) (h : ∀ a ∈ l, f a = a) :
    l.map f = l := by
  induction l with
  | nil => rfl
  | cons a t ih =>
    simp only [List.map_cons, h a (by simp)]
    rw [ih (fun b hb => h b (by simp [hb]))]

/-- If the redraw stream eventually succeeds within the retry budget after only
retryable failures, the pipeline run succeeds, whatever the extraction stream
does. -/
theorem run_completes (mode : TranslationMode) (tl : String) (gl fb : Option String) :
    ∀ K N (ext : Nat → ExtractionOutcome) (rd : Nat → RedrawOutcome), K ≤ N →
      (∀ n, n < K → ∃ m, rd n = RedrawOutcome.err m ∧ isRetryableError m = true) →
      (∃ img i o, rd K = RedrawOutcome.ok img i o) →
      ∃ r, (translateImageRun mode tl gl fb ext rd N).1 = Except.ok r := by
  intro K
  induction K with
  | zero =>
    intro N ext rd _ _ hok
    obtain ⟨img, i, o, hok⟩ := hok
    obtain ⟨r, hr⟩ := translateAttempt_ok mode tl gl fb (ext 0) img i o
    refine ⟨r, ?_⟩
    rw [run_ok mode tl gl fb ext rd r (by rw [hok]; exact hr) N]
  | succ K ih =>
    intro N ext rd hKN hfail hok
    obtain ⟨m0, hm0, hm0r⟩ := hfail 0 (Nat.succ_pos K)
    match N, hKN with
    | Nat.succ N, hKN =>
      have hatt : translateAttempt mode tl gl fb (ext 0) (rd 0) = Except.error m0 := by
        rw [hm0]; exact translateAttempt_err mode tl gl fb (ext 0) m0
      rw [run_succ_err_retry mode tl gl fb ext rd m0 N hatt hm0r]
      exact ih N (fun n => ext (n + 1)) (fun n => rd (n + 1)) (by omega)
        (fun n hn => hfail (n + 1) (by omega)) hok

/-- Any error propagated by the pipeline run is a redraw-call error: the
extraction stream can never make the run fail. -/
theorem run_error_from_rd (mode : TranslationMode) (tl : String) (gl fb : Option String) :
    ∀ N (ext : Nat → ExtractionOutcome) (rd : Nat → RedrawOutcome) (msg : String),
      (translateImageRun mode tl gl fb ext rd N).1 = Except.error msg →
      ∃ k, rd k = RedrawOutcome.err msg := by
  intro N
  induction N with
  | zero =>
    intro ext rd msg h
    cases hatt : translateAttempt mode tl gl fb (ext 0) (rd 0) with
    | ok r => rw [run_ok mode tl gl fb ext rd r hatt 0] at h; simp at h
    | error m0 =>
      rw [run_zero_err mode tl gl fb ext rd m0 hatt] at h
      simp at h
      exact ⟨0, by rw [← h]; exact translateAttempt_error_inv mode tl gl fb (ext 0) (rd 0) m0 hatt⟩
  | succ N ih =>
    intro ext rd msg h
    cases hatt : translateAttempt mode tl gl fb (ext 0) (rd 0) with
    | ok r => rw [run_ok mode tl gl fb ext rd r hatt (N + 1)] at h; simp at h
    | error m0 =>
      cases hm : isRetryableError m0 with
      | true =>
        rw [run_succ_err_retry mode tl gl fb ext rd m0 N hatt hm] at h
        obtain ⟨k, hk⟩ := ih (fun n => ext (n + 1)) (fun n => rd (n + 1)) msg h
        exact ⟨k + 1, hk⟩
      | false =>
        rw [run_succ_err_noretry mode tl gl fb ext rd m0 N hatt hm] at h
        simp at h
        exact ⟨0, by rw [← h]; exact translateAttempt_error_inv mode tl gl fb (ext 0) (rd 0) m0 hatt⟩

/-- The scanning loop agrees with the specification first-minimum scan as soon
as the tracked difference is the one of the tracked best entry. -/
theorem ratioLoop_eq_spec (t : ℚ) :
    ∀ (l : List RatioEntry) (best : RatioEntry),
      ratioLoop t best |t - best.value| l = firstMinSpec t l best := by
  intro l
  induction l with
  | nil => intro best; rfl
  | cons r rs ih =>
    intro best
    by_cases h : |t - r.value| < |t - best.value|
    · simp [ratioLoop, firstMinSpec, h, ih]
    · simp [ratioLoop, firstMinSpec, h, ih]

/-- The first-minimum scan returns either the seed or a list element. -/
theorem firstMinSpec_mem (t : ℚ) :
    ∀ (l : List RatioEntry) (best : RatioEntry),
      firstMinSpec t l best = best ∨ firstMinSpec t l best ∈ l := by
  intro l
  induction l with
  | nil => intro best; exact Or.inl rfl
  | cons r rs ih =>
    intro best
    by_cases h : |t - r.value| < |t - best.value|
    · simp only [firstMinSpec, h, if_true]
      rcases ih r with h1 | h1
      · exact Or.inr (by simp [h1])
      · exact Or.inr (by simp [h1])
    · simp only [firstMinSpec, h, if_false]
      rcases ih best with h1 | h1
      · exact Or.inl h1
      · exact Or.inr (by simp [h1])

/-- The first-minimum scan minimises the difference over the seed and every
list element. -/
theorem firstMinSpec_min (t : ℚ) :
    ∀ (l : List RatioEntry) (best : RatioEntry),
      |t - (firstMinSpec t l best).value| ≤ |t - best.value|
      ∧ ∀ e ∈ l, |t - (firstMinSpec t l best).value| ≤ |t - e.value| := by
  intro l
  induction l with
  | nil => intro best; exact ⟨le_refl _, by simp⟩
  | cons r rs ih =>
    intro best
    by_cases h : |t - r.value| < |t - best.value|
    · simp only [firstMinSpec, h, if_true]
      obtain ⟨h1, h2⟩ := ih r
      refine ⟨le_of_lt (lt_of_le_of_lt h1 h), ?_⟩
      intro e he
      rcases List.mem_cons.mp he with he | he
      · rw [he]; exact h1
      · exact h2 e he
    · simp only [firstMinSpec, h, if_false]
      obtain ⟨h1, h2⟩ := ih best
      refine ⟨h1, ?_⟩
      intro e he
      rcases List.mem_cons.mp he with he | he
      · rw [he]; exact le_trans h1 (not_lt.mp h)
      · exact h2 e he

/-- Tie-break characterisation: the first-minimum scan either keeps the seed,
or returns a list element that strictly beats the seed and every element
listed before it. -/
theorem firstMinSpec_first (t : ℚ) :
    ∀ (l : List RatioEntry) (best : RatioEntry),
      firstMinSpec t l best = best ∨
      ∃ l1 l2, l = l1 ++ firstMinSpec t l best :: l2
        ∧ |t - (firstMinSpec t l best).value| < |t - best.value|
        ∧ ∀ e ∈ l1, |t - (firstMinSpec t l best).value| < |t - e.value| := by
  intro l
  induction l with
  | nil => intro best; exact Or.inl rfl
  | cons r rs ih =>
    intro best
    by_cases h : |t - r.value| < |t - best.value|
    · simp only [firstMinSpec, h, if_true]
      rcases ih r with h1 | ⟨l1, l2, hsplit, hlt, hstrict⟩
      · refine Or.inr ⟨[], rs, ?_, ?_, by simp⟩
        · simp [h1]
        · rw [h1]; exact h
      · refine Or.inr ⟨r :: l1, l2, by rw [List.cons_append]; exact congrArg (List.cons r) hsplit, lt_trans hlt h, ?_⟩
        intro e he
        rcases List.mem_cons.mp he with he | he
        · rw [he]; exact hlt
        · exact hstrict e he
    · simp only [firstMinSpec, h, if_false]
      rcases ih best with h1 | ⟨l1, l2, hsplit, hlt, hstrict⟩
      · exact Or.inl h1
      · refine Or.inr ⟨r :: l1, l2, by rw [List.cons_append]; exact congrArg (List.cons r) hsplit, hlt, ?_⟩
        intro e he
        rcases List.mem_cons.mp he with he | he
        · rw [he]; exact lt_of_lt_of_le hlt (not_lt.mp h)
        · exact hstrict e he

/-- The five supported ratios have pairwise distinct values. -/
theorem supported_value_inj :
    ∀ a ∈ SUPPORTED_ASPECT_RATIOS, ∀ b ∈ SUPPORTED_ASPECT_RATIOS, a.value = b.value → a = b := by
  intro a ha b hb hv
  fin_cases ha <;> fin_cases hb <;> first
    | rfl
    | (exfalso; revert hv; norm_num)

theorem round1_nonneg (x : ℚ) (hx : 0 ≤ x) : 0 ≤ round1 x := by
  unfold round1
  have h1 : (0 : ℤ) ≤ ⌊x * 10 + 1 / 2⌋ := Int.floor_nonneg.mpr (by linarith)
  have h2 : (0 : ℚ) ≤ (⌊x * 10 + 1 / 2⌋ : ℚ) := by exact_mod_cast h1
  linarith

theorem round1_le_ten (x : ℚ) (hx : x ≤ 10) : round1 x ≤ 10 := by
  unfold round1
  have h1 : x * 10 + 1 / 2 ≤ 201 / 2 := by linarith
  have h2 := Int.floor_le_floor h1
  have h3 : ⌊(201 : ℚ) / 2⌋ = 100 := by norm_num
  have h4 : ⌊x * 10 + 1 / 2⌋ ≤ 100 := by omega
  have h5 : (⌊x * 10 + 1 / 2⌋ : ℚ) ≤ 100 := by exact_mod_cast h4
  linarith

/-!
Claim theorems.
-/

/-- C1 (amended): `translateImage` passes `retries = 3` to
`translateImageWithRetry`, which counts RETRIES, not total attempts. On an
operation that fails with a retryable error exactly `K` times and then
succeeds, the call succeeds if and only if `K ≤ 3`, performs exactly
`min (K + 1) 4` invocations of the underlying redraw operation and never more
than 4 total attempts (1 initial + up to 3 retries); when the redraw fails 4
or more times the error propagates, and the batch loop's error update then
puts the page in `ERROR` with the message recorded. -/
theorem C1_retry_budget (mode : TranslationMode) (tl : String) (gl fb : Option String)
    (ext : Nat → ExtractionOutcome) (img : String) (i o K : Nat) (msg : String)
    (hm : isRetryableError msg = true) :
    ((∃ r, (translateImage mode tl gl fb ext (rdFailK K msg img i o)).1 = Except.ok r) ↔ K ≤ 3)
    ∧ (translateImage mode tl gl fb ext (rdFailK K msg img i o)).2 = min (K + 1) 4
    ∧ (translateImage mode tl gl fb ext (rdFailK K msg img i o)).2 ≤ 4
    ∧ (3 < K → (translateImage mode tl gl fb ext (rdFailK K msg img i o)).1 = Except.error msg)
    ∧ (∀ (ps : List PageData) (n : Nat) (p : PageData),
        p ∈ applyEvent (BatchEvent.error n msg) ps → p.pageNumber = n →
        p.status = PageStatus.ERROR ∧ p.errorMessage = some msg) := by
  obtain ⟨hiff, hcnt, herr⟩ := run_failK mode tl gl fb img i o msg hm 3 K ext
  refine ⟨hiff, hcnt, ?_, herr, ?_⟩
  · rw [show (translateImage mode tl gl fb ext (rdFailK K msg img i o)).2
        = min (K + 1) 4 from hcnt]
    exact Nat.min_le_right _ _
  · intro ps n p hp hn
    simp only [applyEvent, List.mem_map] at hp
    obtain ⟨q, _, hq⟩ := hp
    by_cases h : q.pageNumber = n
    · simp only [h, if_true] at hq
      rw [← hq]
      exact ⟨rfl, rfl⟩
    · simp only [h, if_false] at hq
      rw [← hq] at hn
      exact absurd hn h

/-- C1 counterexample: with `retries = 3`, a redraw that fails exactly 3 times
with a rate-limit error and then succeeds leads to SUCCESS after 4 underlying
invocations, contradicting the claim that the wrapper succeeds only for K < 3,
makes at most 3 total attempts, and leaves the page in ERROR after 3
rate-limit failures. -/
theorem C1_counterexample :
    (∃ r, (translateImage TranslationMode.DIRECT "English" none none extAlwaysErr
        (rdFailK 3 "429" "IMG" 5 7)).1 = Except.ok r)
    ∧ (translateImage TranslationMode.DIRECT "English" none none extAlwaysErr
        (rdFailK 3 "429" "IMG" 5 7)).2 = 4 :=
  ⟨⟨_, rfl⟩, by decide⟩

/-- C1 witness: the amended theorem applied at a concrete retryable stream
that fails twice and then succeeds. -/
theorem C1_witness :
    (translateImage TranslationMode.DIRECT "Spanish" none none extAlwaysErr
      (rdFailK 2 "quota exceeded" "IMG" 1 2)).2 = min 3 4 :=
  (C1_retry_budget TranslationMode.DIRECT "Spanish" none none extAlwaysErr "IMG" 1 2 2
    "quota exceeded" (by decide)).2.1

/-- C5 (amended): the redraw retry wrapper (`translateImageWithRetry`) invokes
the operation exactly once on a non-retryable error and propagates the error
unchanged (only 429/403/quota and 500/INTERNAL messages are retryable); the
evaluation wrapper (`evaluateTranslation` in `src/geminiService.ts`), by
contrast, retries EVERY error through its whole budget and then returns the
zero-score fallback instead of propagating. -/
theorem C5_nonretryable_shortcircuit :
    (∀ (mode : TranslationMode) (tl : String) (gl fb : Option String)
        (ext : Nat → ExtractionOutcome) (rd : Nat → RedrawOutcome) (N : Nat) (msg : String),
        rd 0 = RedrawOutcome.err msg → isRetryableError msg = false →
        translateImageRun mode tl gl fb ext rd N = (Except.error msg, 1))
    ∧ (∀ (op : Nat → EvalOutcome) (N : Nat), (∀ n, ∃ m, op n = EvalOutcome.err m) →
        evaluateTranslationRun op N = ((evalFallback, zeroUsage), N + 1)) := by
  constructor
  · intro mode tl gl fb ext rd N msg h0 hm
    have hatt : translateAttempt mode tl gl fb (ext 0) (rd 0) = Except.error msg := by
      rw [h0]; exact translateAttempt_err mode tl gl fb (ext 0) msg
    cases N with
    | zero => exact run_zero_err mode tl gl fb ext rd msg hatt
    | succ n => exact run_succ_err_noretry mode tl gl fb ext rd msg n hatt hm
  · exact fun op N h => evalRun_allErr N op h

/-- C5 counterexample: `evaluateTranslation` (cited by the claim) retries a
NON-retryable error (a parse failure) through its whole budget: 4 invocations
instead of the claimed exactly one, and it returns the fallback instead of
propagating the error. -/
theorem C5_counterexample :
    isRetryableError "parse failure" = false
    ∧ (evaluateTranslation (fun _ => EvalOutcome.err "parse failure")).2 = 4
    ∧ (evaluateTranslation (fun _ => EvalOutcome.err "parse failure")).1
        = (evalFallback, zeroUsage) :=
  ⟨by decide, by decide, by decide⟩

/-- C5 witness: the amended theorem applied to a concrete non-retryable
redraw error. -/
theorem C5_witness :
    translateImageRun TranslationMode.DIRECT "English" none none extAlwaysErr
      (fun _ => RedrawOutcome.err "bad request") 3 = (Except.error "bad request", 1) :=
  C5_nonretryable_shortcircuit.1 TranslationMode.DIRECT "English" none none extAlwaysErr
    (fun _ => RedrawOutcome.err "bad request") 3 "bad request" rfl (by decide)

/-- C4 (confirmed): when every audit attempt fails past the retry budget,
`evaluateTranslation` returns the deterministic fallback (every dimension 0,
average 0, reason indicating evaluator unavailability) without ever throwing
past this boundary, and the orchestrator's evaluation merges never change any
page's primary status, so a `DONE` page stays `DONE` regardless of audit
failure. -/
theorem C4_audit_fallback :
    (∀ (op : Nat → EvalOutcome) (retries : Nat), (∀ n, ∃ m, op n = EvalOutcome.err m) →
        evaluateTranslationRun op retries = ((evalFallback, zeroUsage), retries + 1))
    ∧ evalFallback.scores = zeroScores
    ∧ evalFallback.averageScore = 0
    ∧ evalFallback.reason = "评估服务故障"
    ∧ (∀ (n : Nat) (r : EvaluationResult) (u : UsageStats) (ps : List PageData),
        (batchEvalMergeUpd n r u ps).map PageData.status = ps.map PageData.status
        ∧ (retryEvalMergeUpd n r u ps).map PageData.status = ps.map PageData.status) :=
  ⟨fun op retries h => evalRun_allErr retries op h, rfl, rfl, rfl,
    fun n r u ps => ⟨batchEvalMergeUpd_status n r u ps, retryEvalMergeUpd_status n r u ps⟩⟩

/-- C4 witness: the theorem applied to an always-throwing audit stream with
the code's budget of 3 retries. -/
theorem C4_witness :
    evaluateTranslationRun (fun _ => EvalOutcome.err "boom") 3 = ((evalFallback, zeroUsage), 4) :=
  C4_audit_fallback.1 (fun _ => EvalOutcome.err "boom") 3 (fun _ => ⟨"boom", rfl⟩)

/-- C2 (amended): the ledger total equals the pure fold of the stored per-stage
records after the translation stages complete and after the FIRST evaluation
merge; but a repeated evaluation run REPLACES the stored evaluation record
while still adding its usage to the total, so after such a merge the total
exceeds the fold by exactly the replaced record. -/
theorem C2_ledger_consistency :
    (∀ (mode : TranslationMode) (tl : String) (gl fb : Option String)
        (extOut : ExtractionOutcome) (rdOut : RedrawOutcome) (r : TransSuccess),
        translateAttempt mode tl gl fb extOut rdOut = Except.ok r →
        r.usage.total = foldTotal (ledgerRecords r.usage))
    ∧ (∀ (u : TokenUsage) (e : UsageStats), u.evaluation = none →
        u.total = foldTotal (ledgerRecords u) →
        (mergeEvalUsage u e).total = foldTotal (ledgerRecords (mergeEvalUsage u e)))
    ∧ (∀ (u : TokenUsage) (e0 e : UsageStats), u.evaluation = some e0 →
        u.total = foldTotal (ledgerRecords u) →
        (mergeEvalUsage u e).total
          = addTotal (foldTotal (ledgerRecords (mergeEvalUsage u e))) (usageAsTotal e0)) := by
  refine ⟨?_, ?_, ?_⟩
  · intro mode tl gl fb extOut rdOut r h
    cases rdOut with
    | err m => simp [translateAttempt] at h
    | ok img i o =>
      simp only [translateAttempt, Except.ok.injEq] at h
      rw [← h]
      cases mode with
      | DIRECT =>
        simp [attemptMapping, combineUsage, ledgerRecords, foldTotal, addTotal, zeroTotal,
          usageAsTotal, mkUsage]
      | TWO_STEP =>
        cases extOut with
        | ok segs a b =>
          simp [attemptMapping, combineUsage, ledgerRecords, foldTotal, addTotal, zeroTotal,
            usageAsTotal, mkUsage]
          omega
        | err m =>
          simp [attemptMapping, combineUsage, ledgerRecords, foldTotal, addTotal, zeroTotal,
            usageAsTotal, mkUsage]
  · intro u e hnone htot
    have h1 : ledgerRecords (mergeEvalUsage u e)
        = (u.extraction.toList ++ [u.translation]) ++ [e] := by
      simp [ledgerRecords, mergeEvalUsage]
    have h2 : ledgerRecords u = u.extraction.toList ++ [u.translation] := by
      simp [ledgerRecords, hnone]
    rw [h1, foldTotal_append_single, ← h2, ← htot]
    rfl
  · intro u e0 e heval htot
    have h1 : ledgerRecords (mergeEvalUsage u e)
        = (u.extraction.toList ++ [u.translation]) ++ [e] := by
      simp [ledgerRecords, mergeEvalUsage]
    have h2 : ledgerRecords u = (u.extraction.toList ++ [u.translation]) ++ [e0] := by
      simp [ledgerRecords, heval]
    have hL : (mergeEvalUsage u e).total = addTotal u.total (usageAsTotal e) := rfl
    rw [hL, htot, h2, h1,
      foldTotal_append_single (u.extraction.toList ++ [u.translation]) e0,
      foldTotal_append_single (u.extraction.toList ++ [u.translation]) e]
    rw [addTotal_assoc, addTotal_comm (usageAsTotal e0) (usageAsTotal e), ← addTotal_assoc]

/-- C2 counterexample: a ledger produced by a successful translation, merged
with a first evaluation record and then with a repeated evaluation run (the
`handleRetryEvaluation` path) has `total ≠ fold(extraction ++ translation ++
evaluation)`: the total keeps the replaced record's tokens, the stored
sequences do not. -/
theorem C2_counterexample :
    ledgerEx2.total ≠ foldTotal (ledgerRecords ledgerEx2)
    ∧ ledgerEx2.total.inputTokens = 22
    ∧ (foldTotal (ledgerRecords ledgerEx2)).inputTokens = 17 :=
  ⟨by decide, by decide, by decide⟩

/-- C2 witness: the amended theorem's first-evaluation-merge case applied to
the concrete ledger of a direct-mode translation. -/
theorem C2_witness :
    (mergeEvalUsage ledgerEx0 (mkUsage 5 5)).total
      = foldTotal (ledgerRecords (mergeEvalUsage ledgerEx0 (mkUsage 5 5))) :=
  C2_ledger_consistency.2.1 ledgerEx0 (mkUsage 5 5) rfl
    (by simp [ledgerEx0, combineUsage, foldTotal, ledgerRecords, addTotal, zeroTotal,
      usageAsTotal, mkUsage])

/-- C3 (confirmed): for dimension scores each in [0, 10], the computed
`averageScore` is the arithmetic mean of the nine dimensions rounded to one
decimal place, and therefore lies in [0, 10]. -/
theorem C3_average_score (s : EvaluationScores) (reason suggestions : String)
    (h : ∀ d ∈ scoreDims s, 0 ≤ d ∧ d ≤ 10) :
    (mkEvaluationResult s reason suggestions).averageScore = round1 (dimsMean s)
    ∧ 0 ≤ (mkEvaluationResult s reason suggestions).averageScore
    ∧ (mkEvaluationResult s reason suggestions).averageScore ≤ 10 := by
  have hmean : scoresSum s / 9 = dimsMean s := by
    unfold dimsMean scoreDims scoresSum
    simp
    ring
  have ha := h s.accuracy (by simp [scoreDims])
  have hf := h s.fluency (by simp [scoreDims])
  have hc := h s.consistency (by simp [scoreDims])
  have ht := h s.terminology (by simp [scoreDims])
  have hcp := h s.completeness (by simp [scoreDims])
  have hfp := h s.formatPreservation (by simp [scoreDims])
  have hsp := h s.spelling (by simp [scoreDims])
  have htp := h s.trademarkProtection (by simp [scoreDims])
  have hrr := h s.redundancyRemoval (by simp [scoreDims])
  have hsum0 : 0 ≤ scoresSum s := by
    unfold scoresSum
    linarith [ha.1, hf.1, hc.1, ht.1, hcp.1, hfp.1, hsp.1, htp.1, hrr.1]
  have hsum90 : scoresSum s ≤ 90 := by
    unfold scoresSum
    linarith [ha.2, hf.2, hc.2, ht.2, hcp.2, hfp.2, hsp.2, htp.2, hrr.2]
  have hx0 : 0 ≤ scoresSum s / 9 := div_nonneg hsum0 (by norm_num)
  have hx10 : scoresSum s / 9 ≤ 10 := by
    rw [div_le_iff₀ (by norm_num : (0 : ℚ) < 9)]
    linarith
  have havg : (mkEvaluationResult s reason suggestions).averageScore
      = round1 (scoresSum s / 9) := rfl
  refine ⟨by rw [havg, hmean], ?_, ?_⟩
  · rw [havg]; exact round1_nonneg _ hx0
  · rw [havg]; exact round1_le_ten _ hx10

/-- C3 witness: the theorem applied to all-7 scores. -/
theorem C3_witness :
    (mkEvaluationResult
        { accuracy := 7, fluency := 7, consistency := 7, terminology := 7, completeness := 7,
          formatPreservation := 7, spelling := 7, trademarkProtection := 7,
          redundancyRemoval := 7 } "r" "s").averageScore
      = round1 (dimsMean
        { accuracy := 7, fluency := 7, consistency := 7, terminology := 7, completeness := 7,
          formatPreservation := 7, spelling := 7, trademarkProtection := 7,
          redundancyRemoval := 7 })
    ∧ 0 ≤ (mkEvaluationResult
        { accuracy := 7, fluency := 7, consistency := 7, terminology := 7, completeness := 7,
          formatPreservation := 7, spelling := 7, trademarkProtection := 7,
          redundancyRemoval := 7 } "r" "s").averageScore
    ∧ (mkEvaluationResult
        { accuracy := 7, fluency := 7, consistency := 7, terminology := 7, completeness := 7,
          formatPreservation := 7, spelling := 7, trademarkProtection := 7,
          redundancyRemoval := 7 } "r" "s").averageScore ≤ 10 :=
  C3_average_score
    { accuracy := 7, fluency := 7, consistency := 7, terminology := 7, completeness := 7,
      formatPreservation := 7, spelling := 7, trademarkProtection := 7, redundancyRemoval := 7 }
    "r" "s" (by intro d hd; simp [scoreDims] at hd; rw [hd]; norm_num)

/-- C6 (confirmed): in `TWO_STEP` mode, whatever the extraction step does
(throws on every attempt or yields zero segments), the pipeline still
completes whenever the redraw step succeeds within the retry budget, and any
error the pipeline propagates (which makes the page `ERROR`) is a redraw-call
error, never an extraction failure. -/
theorem C6_extraction_fallback (tl : String) (gl fb : Option String)
    (ext : Nat → ExtractionOutcome) (rd : Nat → RedrawOutcome) (N : Nat)
    (_hext : ∀ n, extFailedOrEmpty (ext n)) :
    (∀ K, K ≤ N →
        (∀ n, n < K → ∃ m, rd n = RedrawOutcome.err m ∧ isRetryableError m = true) →
        (∃ img i o, rd K = RedrawOutcome.ok img i o) →
        ∃ r, (translateImageRun TranslationMode.TWO_STEP tl gl fb ext rd N).1 = Except.ok r)
    ∧ (∀ msg,
        (translateImageRun TranslationMode.TWO_STEP tl gl fb ext rd N).1 = Except.error msg →
        ∃ k, rd k = RedrawOutcome.err msg) := by
  refine ⟨?_, ?_⟩
  · intro K hK hfail hok
    exact run_completes TranslationMode.TWO_STEP tl gl fb K N ext rd hK hfail hok
  · intro msg h
    exact run_error_from_rd TranslationMode.TWO_STEP tl gl fb N ext rd msg h

/-- C6 witness: the theorem applied with an extraction stream that always
throws and a redraw stream that succeeds at once. -/
theorem C6_witness :
    ∃ r, (translateImageRun TranslationMode.TWO_STEP "English" none none extAlwaysErr
        (fun _ => RedrawOutcome.ok "I" 1 2) 3).1 = Except.ok r :=
  (C6_extraction_fallback "English" none none extAlwaysErr (fun _ => RedrawOutcome.ok "I" 1 2) 3
      (fun _ => Or.inl ⟨"boom", rfl⟩)).1 0 (by omega)
    (fun n hn => absurd hn (Nat.not_lt_zero n)) ⟨"I", 1, 2, rfl⟩

set_option maxRecDepth 100000 in
/-- C7 (amended): with zero extracted segments the mapping string is empty,
and the two-step redraw instructions inject the mapping block VERBATIM (the
`TEXT MAPPING TO APPLY` marker followed by the possibly-empty mapping); no
"no corrections available" text exists anywhere in the instructions. -/
theorem C7_mapping_block :
    mappingString [] = ""
    ∧ (∀ (tl : String) (gl : Option String) (m : String) (fb : Option String),
        ∃ pre post, buildPrompt tl gl TranslationMode.TWO_STEP m fb
          = pre ++ ("**TEXT MAPPING TO APPLY:**\n" ++ m ++ "\n") ++ post)
    ∧ strContains (buildPrompt "English" none TranslationMode.TWO_STEP (mappingString []) none)
        "no corrections available" = false := by
  refine ⟨rfl, ?_, by decide⟩
  intro tl gl m fb
  refine ⟨promptHeader tl gl ++ promptTwoStepIntro,
    (if isChineseTarget tl then promptChinese else "") ++ promptOutput ++ promptFeedback fb, ?_⟩
  simp [buildPrompt, promptTwoStep, String.append_assoc]

set_option maxRecDepth 100000 in
/-- C7 counterexample: with zero segments the produced mapping string is
empty, the redraw instructions do NOT contain "no corrections available", and
the empty mapping block IS injected (the marker appears, immediately followed
by the empty mapping). -/
theorem C7_counterexample :
    mappingString [] = ""
    ∧ strContains (buildPrompt "English" none TranslationMode.TWO_STEP (mappingString []) none)
        "no corrections available" = false
    ∧ strContains (buildPrompt "English" none TranslationMode.TWO_STEP (mappingString []) none)
        "**TEXT MAPPING TO APPLY:**" = true :=
  ⟨rfl, by decide, by decide⟩

/-- C8 (confirmed): the `done` update (applied by the batch loop as soon as
the redraw call succeeds) puts the page in `DONE` with `isEvaluating = true`;
the detached evaluation events never change ANY page's primary status (so the
`DONE` status is independent of whether the audit has resolved, failed, or is
still in flight); and the sequential batch loop's own event sequence contains
no evaluation event at all — the evaluation is spawned, never awaited. -/
theorem C8_done_immediate :
    (∀ (ps : List PageData) (n : Nat) (r : TransSuccess) (p : PageData),
        p ∈ applyEvent (BatchEvent.done n r) ps → p.pageNumber = n →
        p.status = PageStatus.DONE ∧ p.isEvaluating = true)
    ∧ (∀ (e : BatchEvent) (ps : List PageData), isEvalEvent e = true →
        (applyEvent e ps).map PageData.status = ps.map PageData.status)
    ∧ (∀ (outcomes : List (Nat × Except String TransSuccess)) (e : BatchEvent),
        e ∈ batchLoopEvents outcomes → isEvalEvent e = false) := by
  refine ⟨?_, ?_, ?_⟩
  · intro ps n r p hp hn
    simp only [applyEvent, List.mem_map] at hp
    obtain ⟨q, _, hq⟩ := hp
    by_cases h : q.pageNumber = n
    · simp only [h, if_true] at hq
      rw [← hq]
      exact ⟨rfl, rfl⟩
    · simp only [h, if_false] at hq
      rw [← hq] at hn
      exact absurd hn h
  · intro e ps he
    cases e with
    | evalMerge n r u => exact batchEvalMergeUpd_status n r u ps
    | evalCatch n =>
      show (ps.map fun p =>
          if p.pageNumber = n then { p with isEvaluating := false } else p).map PageData.status
        = ps.map PageData.status
      rw [List.map_map]
      apply List.map_congr_left
      intro p _
      by_cases h : p.pageNumber = n <;> simp [h]
    | translating n => simp [isEvalEvent] at he
    | done n r => simp [isEvalEvent] at he
    | error n m => simp [isEvalEvent] at he
  · intro outcomes e he
    simp only [batchLoopEvents, List.mem_flatten, List.mem_map] at he
    obtain ⟨l, ⟨q, _, hq⟩, hel⟩ := he
    rw [← hq] at hel
    cases ho : q.2 with
    | ok r =>
      rw [ho] at hel
      simp only [pageLoopEvents, List.mem_cons, List.not_mem_nil, or_false] at hel
      rcases hel with h | h <;> rw [h] <;> rfl
    | error m =>
      rw [ho] at hel
      simp only [pageLoopEvents, List.mem_cons, List.not_mem_nil, or_false] at hel
      rcases hel with h | h <;> rw [h] <;> rfl

/-- C8 witness: the theorem applied to a concrete one-page collection and a
concrete translation result. -/
theorem C8_witness :
    donePageEx.status = PageStatus.DONE ∧ donePageEx.isEvaluating = true :=
  C8_done_immediate.1 [pageEx] 1 transSuccessEx donePageEx
    (List.mem_singleton.mpr rfl) rfl

/-- C9 (confirmed): for positive width and height, `getBestAspectRatio`
returns the label of a supported entry whose absolute difference to
width/height is minimal over the whole table, and every entry listed BEFORE
the returned one is strictly worse (so exact ties are broken in favour of the
earlier-listed entry and the function is deterministic); when width/height
equals a supported ratio exactly, that ratio's label is returned. -/
theorem C9_aspect_snap (w h : ℚ) (_hw : 0 < w) (_hh : 0 < h) :
    (∃ e l1 l2, SUPPORTED_ASPECT_RATIOS = l1 ++ e :: l2
      ∧ getBestAspectRatio w h = e.label
      ∧ (∀ e2 ∈ SUPPORTED_ASPECT_RATIOS, |w / h - e.value| ≤ |w / h - e2.value|)
      ∧ (∀ e2 ∈ l1, |w / h - e.value| < |w / h - e2.value|))
    ∧ (∀ e ∈ SUPPORTED_ASPECT_RATIOS, w / h = e.value → getBestAspectRatio w h = e.label) := by
  have hloop : getBestAspectRatio w h
      = (firstMinSpec (w / h) SUPPORTED_ASPECT_RATIOS { label := "1:1", value := 1 }).label := by
    show (ratioLoop (w / h) { label := "1:1", value := 1 } |w / h - 1|
        SUPPORTED_ASPECT_RATIOS).label
      = (firstMinSpec (w / h) SUPPORTED_ASPECT_RATIOS { label := "1:1", value := 1 }).label
    rw [show |w / h - 1|
        = |w / h - ({ label := "1:1", value := 1 } : RatioEntry).value| from rfl]
    rw [ratioLoop_eq_spec (w / h) SUPPORTED_ASPECT_RATIOS { label := "1:1", value := 1 }]
  obtain ⟨hminhead, hminall⟩ :=
    firstMinSpec_min (w / h) SUPPORTED_ASPECT_RATIOS { label := "1:1", value := 1 }
  have hmem : firstMinSpec (w / h) SUPPORTED_ASPECT_RATIOS { label := "1:1", value := 1 }
      ∈ SUPPORTED_ASPECT_RATIOS := by
    rcases firstMinSpec_mem (w / h) SUPPORTED_ASPECT_RATIOS { label := "1:1", value := 1 }
      with h1 | h1
    · rw [h1]; simp [SUPPORTED_ASPECT_RATIOS]
    · exact h1
  constructor
  · rcases firstMinSpec_first (w / h) SUPPORTED_ASPECT_RATIOS { label := "1:1", value := 1 }
      with h1 | ⟨l1, l2, hsplit, _, hstrict⟩
    · refine ⟨{ label := "1:1", value := 1 },
        [], [{ label := "3:4", value := 3 / 4 }, { label := "4:3", value := 4 / 3 },
             { label := "9:16", value := 9 / 16 }, { label := "16:9", value := 16 / 9 }],
        rfl, by rw [hloop, h1], ?_, ?_⟩
      · intro e2 he2
        have := hminall e2 he2
        rw [h1] at this
        exact this
      · intro e2 he2
        exact absurd he2 (List.not_mem_nil e2)
    · exact ⟨_, l1, l2, hsplit, hloop, hminall, hstrict⟩
  · intro e he hveq
    have h1 := hminall e he
    have h2 : |w / h - e.value| = 0 := by rw [hveq, sub_self, abs_zero]
    rw [h2] at h1
    have h0 : |w / h - (firstMinSpec (w / h) SUPPORTED_ASPECT_RATIOS
        { label := "1:1", value := 1 }).value| = 0 :=
      le_antisymm h1 (abs_nonneg _)
    have h4 := abs_eq_zero.mp h0
    have hval : (firstMinSpec (w / h) SUPPORTED_ASPECT_RATIOS
        { label := "1:1", value := 1 }).value = e.value := by
      rw [← hveq]
      linarith
    rw [hloop, supported_value_inj _ hmem e he hval]

/-- C9 witness: the theorem applied at width 16, height 9. -/
theorem C9_witness :
    (∃ e l1 l2, SUPPORTED_ASPECT_RATIOS = l1 ++ e :: l2
      ∧ getBestAspectRatio 16 9 = e.label
      ∧ (∀ e2 ∈ SUPPORTED_ASPECT_RATIOS, |16 / 9 - e.value| ≤ |16 / 9 - e2.value|)
      ∧ (∀ e2 ∈ l1, |16 / 9 - e.value| < |16 / 9 - e2.value|))
    ∧ (∀ e ∈ SUPPORTED_ASPECT_RATIOS, 16 / 9 = e.value → getBestAspectRatio 16 9 = e.label) :=
  C9_aspect_snap 16 9 (by norm_num) (by norm_num)

/-- C10 (confirmed): the keyed evaluation merges modify at most the page whose
number matches (every position holding a page with a different number is left
unchanged, and lengths are preserved); when no page matches, both merges leave
the collection unchanged, and in the batch/retry paths a matching page with no
usage ledger also leaves the collection unchanged. -/
theorem C10_merge_frame :
    (∀ (n : Nat) (r : EvaluationResult) (u : UsageStats) (ps : List PageData) (i : Nat)
        (p : PageData), ps[i]? = some p → p.pageNumber ≠ n →
        (batchEvalMergeUpd n r u ps)[i]? = some p
        ∧ (retryEvalMergeUpd n r u ps)[i]? = some p)
    ∧ (∀ (n : Nat) (r : EvaluationResult) (u : UsageStats) (ps : List PageData),
        (∀ p ∈ ps, p.pageNumber ≠ n) →
        batchEvalMergeUpd n r u ps = ps ∧ retryEvalMergeUpd n r u ps = ps)
    ∧ (∀ (n : Nat) (r : EvaluationResult) (u : UsageStats) (ps : List PageData),
        (∀ p ∈ ps, p.pageNumber = n → p.usage = none) →
        batchEvalMergeUpd n r u ps = ps)
    ∧ (∀ (n : Nat) (r : EvaluationResult) (u : UsageStats) (ps : List PageData),
        (batchEvalMergeUpd n r u ps).length = ps.length
        ∧ (retryEvalMergeUpd n r u ps).length = ps.length) := by
  refine ⟨?_, ?_, ?_, ?_⟩
  · intro n r u ps i p hip hne
    constructor
    · unfold batchEvalMergeUpd
      rw [List.getElem?_map, hip]
      simp [hne]
    · unfold retryEvalMergeUpd
      rw [List.getElem?_map, hip]
      simp [hne]
  · intro n r u ps hall
    constructor
    · exact map_self_of_fix ps _ (fun p hp => by simp [hall p hp])
    · exact map_self_of_fix ps _ (fun p hp => by simp [hall p hp])
  · intro n r u ps hall
    refine map_self_of_fix ps _ (fun p hp => ?_)
    by_cases hpn : p.pageNumber = n
    · simp [hpn, hall p hp hpn]
    · simp [hpn]
  · intro n r u ps
    exact ⟨List.length_map ps _, List.length_map ps _⟩

/-- C10 witness: the frame property applied to a one-page collection whose
page number does not match the merged evaluation's key. -/
theorem C10_witness :
    (batchEvalMergeUpd 2 evalFallback zeroUsage [pageEx])[0]? = some pageEx
    ∧ (retryEvalMergeUpd 2 evalFallback zeroUsage [pageEx])[0]? = some pageEx :=
  C10_merge_frame.1 2 evalFallback zeroUsage [pageEx] 0 pageEx rfl (by decide)

end PDFVT
